import Mathlib

set_option maxRecDepth 4096

/-!
Verification of the audio bridge server (smb-voice-agent).

This file shallowly embeds the codec, pacer, session teardown and HTTP
routing logic of the bridge server and proves the specification claims
about them.  Machine integers are modelled as Nat / Int with explicit
masking where the JavaScript semantics truncates; byte sequences are
lists of Nat and sample sequences are lists of Int.
-/

namespace VoiceAgent

/-! ## Codec: mu-law bytes to linear PCM16 samples and back.

Embedded from convertMulawToPCM16 / convertPCM16ToMulaw in src/server.js
lines 75-115; the same functions appear in the variant files
src/unnamed/part_000 ... part_005. -/

/-- Exponent-search loop of the encoder, from src/server.js lines 102-105:
exp starts at 7, the loop tries e = 0, 1, ... for fuel iterations (eight in
the source) and stops at the first e with s <= 0xFF << e. -/
def findExpAux (s : Nat) : Nat → Nat → Nat
  | _, 0 => 7
  | e, fuel + 1 => if s ≤ 255 <<< e then e else findExpAux s (e + 1) fuel

/-- The exponent chosen by the encoder for the biased magnitude s. -/
def findExp (s : Nat) : Nat := findExpAux s 0 8

/-- Per-sample encoder pcmToMulaw from src/server.js lines 97-108.  The
JavaScript computes a bitwise NOT on a 32-bit integer and the result is
stored into a Uint8Array, which keeps the low 8 bits; for a value v in
[0, 255] that truncated complement equals v ^^^ 0xFF (part_004 writes the
truncation explicitly as ~(...) & 0xff). -/
def pcmToMulaw (pcm : Int) : Nat :=
  let sign : Nat := if pcm < 0 then 0x80 else 0x00
  let s := min pcm.natAbs 32635 + 0x84
  let exp := findExp s
  let man := (s >>> (exp + 3)) &&& 0x0F
  (sign ||| (exp <<< 4) ||| man) ^^^ 0xFF

/-- Per-byte decoder mulawToPcm from src/server.js lines 76-85.  The
JavaScript complement ~x feeds only 8-bit field extractions, so it is
modelled as complementing the low byte. -/
def mulawToPcm (x : Nat) : Int :=
  let c := (x &&& 0xFF) ^^^ 0xFF
  let sign := c &&& 0x80
  let exp := (c >>> 4) &&& 7
  let man := c &&& 0x0F
  let s : Int := ((((man <<< 3) + 0x84) <<< exp : Nat) : Int) - 0x84
  if sign ≠ 0 then -s else s

/-- Sample-and-hold upsampling by three, from src/server.js lines 88-92:
every source sample is written to three consecutive output slots. -/
def upsample3 : List Int → List Int
  | [] => []
  | s :: rest => s :: s :: s :: upsample3 rest

/-- Decimation by three, from src/server.js lines 110-111: the output
keeps the first sample of each complete group of three and has
floor (n / 3) entries. -/
def decimate3 : List Int → List Int
  | a :: _ :: _ :: rest => a :: decimate3 rest
  | _ => []

/-- convertMulawToPCM16 (src/server.js lines 75-94) at the sample level:
decode each byte, then upsample three-fold. -/
def convertMulawToPCM16 (mulawData : List Nat) : List Int :=
  upsample3 (mulawData.map mulawToPcm)

/-- convertPCM16ToMulaw (src/server.js lines 96-115) at the sample level:
keep every third sample, then encode each kept sample to one byte. -/
def convertPCM16ToMulaw (pcm24kData : List Int) : List Nat :=
  (decimate3 pcm24kData).map pcmToMulaw

/-! ## Claim-side formulations of the codec, written from the wording of
the specification rather than from the code, for comparison. -/

/-- Minimal exponent e in [0, 7] with s <= 0xFF << e, defaulting to 7 when
no such exponent exists; this is the formulation used by the spec. -/
def minExpClaim (s : Nat) : Nat := ((List.range 8).find? fun e => s ≤ 255 <<< e).getD 7

/-- The per-sample encoder exactly as claim C1 words it, with the clamp at
the companding maximum magnitude 8159 stated by the spec. -/
def encodeSampleClaim (pcm : Int) : Nat :=
  let sign : Nat := if pcm < 0 then 0x80 else 0x00
  let s := min pcm.natAbs 8159 + 132
  let exp := minExpClaim s
  let man := (s >>> (exp + 3)) &&& 0x0F
  (sign ||| (exp <<< 4) ||| man) ^^^ 0xFF

/-- The per-sample encoder as amended: the code clamps the magnitude to
32635 (so the biased value can reach 32767, exceeding 0xFF << 7, in which
case the exponent search falls back to its default 7). -/
def encodeSampleAmended (pcm : Int) : Nat :=
  let sign : Nat := if pcm < 0 then 0x80 else 0x00
  let s := min pcm.natAbs 32635 + 132
  let exp := minExpClaim s
  let man := (s >>> (exp + 3)) &&& 0x0F
  (sign ||| (exp <<< 4) ||| man) ^^^ 0xFF

/-- Per-byte decode as claim C2 words it, in plain arithmetic: complement
the byte, split it into sign, exponent and mantissa fields, reconstruct
((mantissa << 3) + 132) << exponent minus 132, negate when the sign bit of
the complemented byte is set. -/
def decodeSampleSpec (b : Nat) : Int :=
  let c := 255 - b % 256
  let man := c % 16
  let exp := c / 16 % 8
  let mag : Int := (((man * 8 + 132) * 2 ^ exp : Nat) : Int) - 132
  if 128 ≤ c then -mag else mag

/-! ## Session model: pacer, media forwarding and teardown.

State of one bridge session, from the per-connection variables of
wss.on connection in src/server.js lines 171-196: the stream identifier,
the readyState of the two sockets (the AI socket is none until created),
the outbound mu-law queue outMu, and whether the two recurring timers
(pacer interval twilioFlusher and idle watchdog idleTimer) are live. -/

/-- WebSocket readyState values. -/
inductive WsState
  | CONNECTING
  | OPEN
  | CLOSING
  | CLOSED
deriving DecidableEq

/-- Per-call session state (src/server.js lines 172-196). -/
structure SessionState where
  streamSid : Option String
  twilioState : WsState
  openaiWs : Option WsState
  outMu : List Nat
  flusherActive : Bool
  idleActive : Bool
deriving DecidableEq

/-- Outbound messages to the telephony socket (media frame or mark). -/
inductive TwilioMsg
  | media (payload : List Nat)
  | mark
deriving DecidableEq

/-- Frame size: 20 ms of 8 kHz mu-law (src/server.js line 186). -/
def CHUNK : Nat := 160

/-- One execution of the pacer interval callback, from startFlusher in
src/server.js lines 199-217: when both sockets are closed the callback
cancels its own interval; when the stream identifier is missing or the
telephony socket is not open it returns without effect; when the queue
holds at least one frame it dequeues and sends the 160-byte prefix as a
media message; otherwise it sends a mark message. -/
def flusherTickBody (s : SessionState) : SessionState × Option TwilioMsg :=
  if (s.openaiWs = none ∨ s.openaiWs = some WsState.CLOSED) ∧ s.twilioState = WsState.CLOSED then
    ({ s with flusherActive := false }, none)
  else if s.streamSid = none ∨ s.twilioState ≠ WsState.OPEN then (s, none)
  else if CHUNK ≤ s.outMu.length then
    ({ s with outMu := s.outMu.drop CHUNK }, some (TwilioMsg.media (s.outMu.take CHUNK)))
  else (s, some TwilioMsg.mark)

/-- A timer tick: the callback runs only while the interval is live. -/
def flusherTick (s : SessionState) : SessionState × Option TwilioMsg :=
  if s.flusherActive then flusherTickBody s else (s, none)

/-- k consecutive pacer callback executions with the emitted messages. -/
def tickN : SessionState → Nat → SessionState × List TwilioMsg
  | s, 0 => (s, [])
  | s, k + 1 =>
    let t := flusherTickBody s
    let r := tickN t.1 k
    (r.1, t.2.toList ++ r.2)

/-- The first k frames of a byte queue, as media messages in FIFO order. -/
def chunks160 : Nat → List Nat → List TwilioMsg
  | 0, _ => []
  | k + 1, l => TwilioMsg.media (l.take CHUNK) :: chunks160 k (l.drop CHUNK)

/-- Messages sent to the AI socket. -/
inductive OpenAiMsg
  | inputAudioAppend (audio : List Int)
deriving DecidableEq

/-- The telephony media event handler, from src/server.js lines 456-461:
when the AI socket exists and is open, the payload is decoded and sent as
an input-audio-append message; otherwise nothing happens. -/
def handleMediaEvent (s : SessionState) (payload : List Nat) : SessionState × Option OpenAiMsg :=
  if s.openaiWs = some WsState.OPEN then
    (s, some (OpenAiMsg.inputAudioAppend (convertMulawToPCM16 payload)))
  else (s, none)

/-- Socket close commands issued by the teardown handlers. -/
inductive CloseCmd
  | closeOpenai
  | closeTwilio
deriving DecidableEq

/-- clearAllTimers from src/server.js lines 188-191: both recurring
timers are cleared and their handles nulled. -/
def clearAllTimers (s : SessionState) : SessionState :=
  { s with flusherActive := false, idleActive := false }

/-- hardCloseAll from src/server.js lines 192-196: close each socket that
is open, then clear all timers. -/
def hardCloseAll (s : SessionState) : SessionState × List CloseCmd :=
  (clearAllTimers s,
    (if s.openaiWs = some WsState.OPEN then [CloseCmd.closeOpenai] else []) ++
    (if s.twilioState = WsState.OPEN then [CloseCmd.closeTwilio] else []))

/-- The telephony stop event handler (src/server.js lines 467-471)
invokes hardCloseAll. -/
def handleStopEvent (s : SessionState) : SessionState × List CloseCmd := hardCloseAll s

/-- The AI socket close handler, src/server.js lines 328-332: close the
telephony socket if it is open and clear all timers. -/
def handleOpenaiClose (s : SessionState) : SessionState × List CloseCmd :=
  (clearAllTimers s,
    if s.twilioState = WsState.OPEN then [CloseCmd.closeTwilio] else [])

/-- The telephony socket close handler, src/server.js lines 477-481:
clear all timers and close the AI socket if it is open. -/
def handleTwilioClose (s : SessionState) : SessionState × List CloseCmd :=
  (clearAllTimers s,
    if s.openaiWs = some WsState.OPEN then [CloseCmd.closeOpenai] else [])

/-- The AI socket error handler, src/server.js line 334: it only logs and
issues no close against either socket. -/
def handleOpenaiError (s : SessionState) : SessionState × List CloseCmd := (s, [])

/-- The telephony socket error handler, src/server.js line 483: it only
logs and issues no close against either socket. -/
def handleTwilioError (s : SessionState) : SessionState × List CloseCmd := (s, [])

/-- The stop event handler of the part_000 variant (src/unnamed/part_000
lines 138-142): it closes the AI socket when open and the telephony
socket unconditionally, and it does not touch either timer; in that
variant the interval handle returned by startFlusher (lines 58-68) is
discarded at the call site and the idle watchdog handle is never stored,
so no teardown path can clear them. -/
def p0HandleStop (s : SessionState) : SessionState × List CloseCmd :=
  (s,
    (if s.openaiWs = some WsState.OPEN then [CloseCmd.closeOpenai] else []) ++
    [CloseCmd.closeTwilio])

/-! ## HTTP routing model.

The health handlers of the three variants cited by claim C10, with the
current ISO time string passed in as a parameter. -/

/-- JSON values appearing in the health response bodies. -/
inductive Json
  | str (s : String)
  | bool (b : Bool)
deriving DecidableEq

/-- Field lookup in a JSON object body. -/
def jsonField (body : List (String × Json)) (k : String) : Option Json :=
  (body.find? fun p => p.1 == k).map Prod.snd

/-- The HTTP handler of src/server.js lines 149-156: req.url equal to
/health yields 200 with body fields status and at; anything else 404. -/
def healthHandlerMain (reqUrl : String) (iso : String) : Nat × Option (List (String × Json)) :=
  if reqUrl = "/health" then
    (200, some [("status", Json.str "ok"), ("at", Json.str iso)])
  else (404, none)

/-- The HTTP handler of src/unnamed/part_000 lines 35-42: pathname equal
to /health yields 200 with body fields status and timestamp; 404 else.
Variants part_001, part_003 and part_005 use the same body. -/
def healthHandlerP0 (pathname : String) (iso : String) : Nat × Option (List (String × Json)) :=
  if pathname = "/health" then
    (200, some [("status", Json.str "ok"), ("timestamp", Json.str iso)])
  else (404, none)

/-- The HTTP handler of src/unnamed/part_004 lines 20-31: pathname equal
to /health yields 200 with body fields ok and ts; 404 else. -/
def healthHandlerP4 (pathname : String) (iso : String) : Nat × Option (List (String × Json)) :=
  if pathname = "/health" then
    (200, some [("ok", Json.bool true), ("ts", Json.str iso)])
  else (404, none)

/-! ## Concrete session states used by witnesses and counterexamples. -/

/-- A session whose AI socket exists but is still connecting. -/
def sessClosedAi : SessionState :=
  ⟨some "MZx", WsState.OPEN, some WsState.CONNECTING, [], true, true⟩

/-- A session with both sockets open and timers live. -/
def sessBothOpen : SessionState :=
  ⟨some "MZy", WsState.OPEN, some WsState.OPEN, [], true, true⟩

/-- A session with one full frame queued and both sockets open. -/
def sessLoaded : SessionState :=
  ⟨some "MZw", WsState.OPEN, some WsState.OPEN, List.replicate 160 7, true, true⟩

/-- A session whose telephony socket is closing (hence not open). -/
def sessNotOpen : SessionState :=
  ⟨some "MZw", WsState.CLOSING, some WsState.OPEN, [4, 5, 6], true, true⟩

/-- A session in which both sockets have fully closed. -/
def sessBothClosed : SessionState :=
  ⟨some "MZz", WsState.CLOSED, some WsState.CLOSED, [9], true, true⟩

/-! ## Helper lemmas. -/

/-- The bounded search loop of the encoder computes the minimal exponent
in [0, 7], with 7 as fallback. -/
lemma findExp_eq_minExpClaim (s : Nat) : findExp s = minExpClaim s := by
  have h8 : List.range 8 = [0, 1, 2, 3, 4, 5, 6, 7] := by decide
  simp only [findExp, minExpClaim, h8, findExpAux, List.find?_cons]
  norm_num [Nat.shiftLeft_eq]
  split_ifs <;> try simp_all [decide_eq_false, Nat.not_le]
  rcases le_or_lt s 32640 with h | h <;> simp_all [decide_eq_false, Nat.not_le]

lemma upsample3_length (xs : List Int) : (upsample3 xs).length = 3 * xs.length := by
  induction xs with
  | nil => simp [upsample3]
  | cons x rest ih => simp [upsample3, ih]; omega

lemma upsample3_getD (xs : List Int) (i : Nat) (hi : i < xs.length) :
    (upsample3 xs).getD (3 * i) 0 = xs.getD i 0 ∧
    (upsample3 xs).getD (3 * i + 1) 0 = xs.getD i 0 ∧
    (upsample3 xs).getD (3 * i + 2) 0 = xs.getD i 0 := by
  induction xs generalizing i with
  | nil => simp at hi
  | cons x rest ih =>
    cases i with
    | zero => simp [upsample3]
    | succ j =>
      have hj : j < rest.length := by simpa using hi
      obtain ⟨a, b, c⟩ := ih j hj
      refine ⟨?_, ?_, ?_⟩
      · rw [show 3 * (j + 1) = 3 * j + 1 + 1 + 1 by ring]
        simpa [upsample3, List.getD_cons_succ] using a
      · rw [show 3 * (j + 1) + 1 = 3 * j + 2 + 1 + 1 by ring]
        simpa [upsample3, List.getD_cons_succ] using b
      · rw [show 3 * (j + 1) + 2 = 3 * j + 2 + 1 + 1 + 1 by ring]
        simpa [upsample3, List.getD_cons_succ] using c

lemma decimate3_length (l : List Int) : (decimate3 l).length = l.length / 3 := by
  induction l using decimate3.induct with
  | case1 a b c rest ih => simp [decimate3, ih]; omega
  | case2 l h => cases l with
    | nil => simp [decimate3]
    | cons x t => cases t with
      | nil => simp [decimate3]
      | cons y u => cases u with
        | nil => simp [decimate3]
        | cons z v => exact absurd rfl (h x y z v)

lemma decimate3_getD (l : List Int) (i : Nat) (hi : i < l.length / 3) :
    (decimate3 l).getD i 0 = l.getD (3 * i) 0 := by
  induction l using decimate3.induct generalizing i with
  | case1 a b c rest ih =>
    cases i with
    | zero => simp [decimate3]
    | succ j =>
      have hj : j < rest.length / 3 := by simp at hi; omega
      rw [show 3 * (j + 1) = 3 * j + 1 + 1 + 1 by ring]
      simpa [decimate3, List.getD_cons_succ] using ih j hj
  | case2 l h =>
    cases l with
    | nil => simp at hi
    | cons x t => cases t with
      | nil => exact absurd hi (by simp)
      | cons y u => cases u with
        | nil => exact absurd hi (by simp)
        | cons z v => exact absurd rfl (h x y z v)

lemma decimate3_congr (l l2 : List Int) (hlen : l2.length = l.length)
    (hpos : ∀ i, 3 * i < l.length → l.getD (3 * i) 0 = l2.getD (3 * i) 0) :
    decimate3 l = decimate3 l2 := by
  induction l using decimate3.induct generalizing l2 with
  | case1 a b c rest ih =>
    cases l2 with
    | nil => simp at hlen
    | cons a2 t2 => cases t2 with
      | nil => simp at hlen
      | cons b2 u2 => cases u2 with
        | nil => simp at hlen
        | cons c2 rest2 =>
          have h0 := hpos 0 (by simp)
          simp at h0
          have hlen2 : rest2.length = rest.length := by simpa using hlen
          have hpos2 : ∀ i, 3 * i < rest.length →
              rest.getD (3 * i) 0 = rest2.getD (3 * i) 0 := by
            intro i hi
            have := hpos (i + 1) (by simp; omega)
            rw [show 3 * (i + 1) = 3 * i + 1 + 1 + 1 by ring] at this
            simpa [List.getD_cons_succ] using this
          simp [decimate3, h0, ih rest2 hlen2 hpos2]
  | case2 l h =>
    cases l with
    | nil =>
      cases l2 with
      | nil => rfl
      | cons x t => simp at hlen
    | cons x t => cases t with
      | nil =>
        cases l2 with
        | nil => simp at hlen
        | cons x2 t2 => cases t2 with
          | nil => simp [decimate3]
          | cons y2 u2 => simp at hlen
      | cons y u => cases u with
        | nil =>
          cases l2 with
          | nil => simp at hlen
          | cons x2 t2 => cases t2 with
            | nil => simp at hlen
            | cons y2 u2 => cases u2 with
              | nil => simp [decimate3]
              | cons z2 v2 => simp at hlen
        | cons z v => exact absurd rfl (h x y z v)

lemma getD_map {α β : Type} (f : α → β) (l : List α) (i : Nat) (d : β) (d0 : α)
    (hi : i < l.length) : (l.map f).getD i d = f (l.getD i d0) := by
  rw [List.getD_eq_getElem?_getD, List.getD_eq_getElem?_getD,
    List.getElem?_eq_getElem (by simpa using hi), List.getElem?_eq_getElem hi]
  simp

lemma pcmToMulaw_eq_amended (pcm : Int) : pcmToMulaw pcm = encodeSampleAmended pcm := by
  simp only [pcmToMulaw, encodeSampleAmended, findExp_eq_minExpClaim]

lemma mulawToPcm_eq_spec (b : Fin 256) : mulawToPcm b.val = decodeSampleSpec b.val := by
  revert b; decide

lemma mulaw_range (b : Fin 256) : -32768 ≤ mulawToPcm b.val ∧ mulawToPcm b.val ≤ 32767 := by
  revert b; decide

lemma minExpClaim_le (s : Nat) : minExpClaim s ≤ 7 := by
  unfold minExpClaim
  cases hf : (List.range 8).find? (fun e => s ≤ 255 <<< e) with
  | none => simp
  | some e =>
    have he := List.mem_of_find?_eq_some hf
    simp at he ⊢
    omega

/-- Draining run of the pacer: with the telephony socket open, a stream
identifier assigned and exactly k frames queued, k callback executions
emit the k frame prefixes in order and empty the queue. -/
lemma tickN_drain (k : Nat) :
    ∀ s : SessionState, s.twilioState = WsState.OPEN → s.streamSid ≠ none →
      s.outMu.length = 160 * k →
      tickN s k = ({ s with outMu := [] }, chunks160 k s.outMu) := by
  induction k with
  | zero =>
    intro s h1 h2 h3
    obtain ⟨sid, tw, oa, om, fa, ia⟩ := s
    simp only [Nat.mul_zero] at h3
    have : om = [] := List.eq_nil_of_length_eq_zero h3
    subst this
    rfl
  | succ k ih =>
    intro s h1 h2 h3
    have hb1 : ¬ ((s.openaiWs = none ∨ s.openaiWs = some WsState.CLOSED) ∧
        s.twilioState = WsState.CLOSED) := by
      rw [h1]; simp
    have hb2 : ¬ (s.streamSid = none ∨ s.twilioState ≠ WsState.OPEN) := by
      rw [h1]; simp; intro hc; exact absurd hc h2
    have hb3 : CHUNK ≤ s.outMu.length := by simp [CHUNK]; omega
    have hstep : flusherTickBody s =
        ({ s with outMu := s.outMu.drop CHUNK }, some (TwilioMsg.media (s.outMu.take CHUNK))) := by
      rw [flusherTickBody, if_neg hb1, if_neg hb2, if_pos hb3]
    have hrec := ih { s with outMu := s.outMu.drop CHUNK } h1 h2
      (by simp [CHUNK]; omega)
    show (let t := flusherTickBody s; let r := tickN t.1 k; (r.1, t.2.toList ++ r.2)) = _
    rw [hstep]
    simp only []
    rw [hrec]
    constructor

/-- Composition of pacer callback runs. -/
lemma tickN_add (a b : Nat) :
    ∀ s : SessionState,
      tickN s (a + b) =
        ((tickN (tickN s a).1 b).1, (tickN s a).2 ++ (tickN (tickN s a).1 b).2) := by
  induction a with
  | zero => intro s; simp [tickN]
  | succ a ih =>
    intro s
    have hsh : a + 1 + b = (a + b) + 1 := by omega
    rw [hsh]
    show (let t := flusherTickBody s; let r := tickN t.1 (a + b); (r.1, t.2.toList ++ r.2)) = _
    simp only []
    rw [ih (flusherTickBody s).1]
    show _ = ((tickN (tickN s (a + 1)).1 b).1, _)
    have hpeel : tickN s (a + 1) =
        ((tickN (flusherTickBody s).1 a).1,
          (flusherTickBody s).2.toList ++ (tickN (flusherTickBody s).1 a).2) := rfl
    rw [hpeel]
    simp [List.append_assoc]

/-! ## Claim C1: per-sample encoding formula. -/

/-- C1 counterexample: the claim clamps the magnitude to 8159, but the
code clamps to 32635; at the kept sample 10000 the code emits byte 156
while the formula of the claim yields 159, so the claim as stated is
false. -/
theorem encode_claim_formula_cex :
    convertPCM16ToMulaw [10000, 0, 0] = [156] ∧ encodeSampleClaim 10000 = 159 := by decide

/-- C1 (amended): for in-range 16-bit samples, every output byte of
convertPCM16ToMulaw is obtained from the kept sample of its group by
taking the absolute value, clamping it to 32635 (not 8159), adding the
bias 132, taking the minimal exponent e in [0, 7] with the biased value
at most 0xFF << e (defaulting to 7 when the biased value exceeds
0xFF << 7), extracting the mantissa (value >> (e + 3)) & 0xF, assembling
sign, exponent and mantissa, and complementing the byte. -/
theorem encode_formula_amended (samples : List Int)
    (h : ∀ x ∈ samples, -32768 ≤ x ∧ x ≤ 32767) :
    convertPCM16ToMulaw samples = (decimate3 samples).map encodeSampleAmended :=
  List.map_congr_left (fun a _ => pcmToMulaw_eq_amended a)

/-- C1 witness: the amended formula evaluated on the concrete input
[10000, 0, 0]. -/
theorem encode_formula_amended_witness :
    convertPCM16ToMulaw [(10000 : Int), 0, 0] =
      (decimate3 [(10000 : Int), 0, 0]).map encodeSampleAmended :=
  encode_formula_amended _ (by decide)

/-! ## Claim C2: per-byte decoding formula and three-fold upsampling. -/

/-- C2: for every list of bytes below 256, convertMulawToPCM16 yields
exactly 3 N samples, and for every index i the three consecutive output
samples at 3 i, 3 i + 1 and 3 i + 2 all equal the sample reconstructed
from byte i by the companding inverse transform of the claim. -/
theorem decode_formula_and_upsample (l : List Nat) (i : Nat)
    (h : ∀ b ∈ l, b < 256) (hi : i < l.length) :
    (convertMulawToPCM16 l).length = 3 * l.length ∧
    (convertMulawToPCM16 l).getD (3 * i) 0 = decodeSampleSpec (l.getD i 0) ∧
    (convertMulawToPCM16 l).getD (3 * i + 1) 0 = decodeSampleSpec (l.getD i 0) ∧
    (convertMulawToPCM16 l).getD (3 * i + 2) 0 = decodeSampleSpec (l.getD i 0) := by
  have hmem : l.getD i 0 ∈ l := by
    rw [List.getD_eq_getElem?_getD, List.getElem?_eq_getElem hi]
    exact List.getElem_mem hi
  have hb : l.getD i 0 < 256 := h _ hmem
  have hi2 : i < (l.map mulawToPcm).length := by simpa using hi
  obtain ⟨a, b2, c⟩ := upsample3_getD (l.map mulawToPcm) i hi2
  have hgm : (l.map mulawToPcm).getD i 0 = mulawToPcm (l.getD i 0) :=
    getD_map mulawToPcm l i 0 0 hi
  have hspec : mulawToPcm (l.getD i 0) = decodeSampleSpec (l.getD i 0) :=
    mulawToPcm_eq_spec ⟨l.getD i 0, hb⟩
  refine ⟨by simp [convertMulawToPCM16, upsample3_length], ?_, ?_, ?_⟩
  · rw [convertMulawToPCM16, a, hgm, hspec]
  · rw [convertMulawToPCM16, b2, hgm, hspec]
  · rw [convertMulawToPCM16, c, hgm, hspec]

/-- C2 witness: the decoding claim evaluated on the concrete two-byte
input [255, 128] at group index 1. -/
theorem decode_formula_and_upsample_witness :
    (convertMulawToPCM16 [255, 128]).length = 3 * 2 ∧
    (convertMulawToPCM16 [255, 128]).getD (3 * 1) 0 = decodeSampleSpec ([255, 128].getD 1 0) ∧
    (convertMulawToPCM16 [255, 128]).getD (3 * 1 + 1) 0 = decodeSampleSpec ([255, 128].getD 1 0) ∧
    (convertMulawToPCM16 [255, 128]).getD (3 * 1 + 2) 0 = decodeSampleSpec ([255, 128].getD 1 0) :=
  decode_formula_and_upsample [255, 128] 1 (by decide) (by decide)

/-! ## Claim C3: decimation invariant of the encoder. -/

/-- C3: convertPCM16ToMulaw yields floor (n / 3) bytes (hence N bytes on
3 N samples), byte i is computed from input sample 3 i alone, and two
inputs of the same length agreeing on every position divisible by three
encode identically, so positions 1 and 2 of each group never affect the
output. -/
theorem encode_decimation (l l2 : List Int) (i : Nat) (hlen : l2.length = l.length)
    (hpos : ∀ j, 3 * j < l.length → l.getD (3 * j) 0 = l2.getD (3 * j) 0)
    (hi : i < l.length / 3) :
    (convertPCM16ToMulaw l).length = l.length / 3 ∧
    (convertPCM16ToMulaw l).getD i 0 = pcmToMulaw (l.getD (3 * i) 0) ∧
    convertPCM16ToMulaw l = convertPCM16ToMulaw l2 := by
  refine ⟨by simp [convertPCM16ToMulaw, decimate3_length], ?_, ?_⟩
  · rw [convertPCM16ToMulaw,
      getD_map pcmToMulaw (decimate3 l) i 0 0 (by rw [decimate3_length]; exact hi),
      decimate3_getD l i hi]
  · rw [convertPCM16ToMulaw, convertPCM16ToMulaw, decimate3_congr l l2 hlen hpos]

/-- C3 witness: six samples where positions 1 and 2 of each group differ
between the two inputs and the outputs coincide. -/
theorem encode_decimation_witness :
    (convertPCM16ToMulaw [1, 2, 3, 4, 5, 6]).length = 6 / 3 ∧
    (convertPCM16ToMulaw [1, 2, 3, 4, 5, 6]).getD 1 0 =
      pcmToMulaw ([(1 : Int), 2, 3, 4, 5, 6].getD (3 * 1) 0) ∧
    convertPCM16ToMulaw [1, 2, 3, 4, 5, 6] = convertPCM16ToMulaw [1, 9, 9, 4, 9, 9] :=
  encode_decimation [1, 2, 3, 4, 5, 6] [1, 9, 9, 4, 9, 9] 1 (by decide)
    (by
      intro j hj
      simp only [List.length_cons, List.length_nil] at hj
      have h2 : j < 2 := by omega
      interval_cases j <;> rfl)
    (by decide)

/-! ## Claim C4: idempotence of decode-then-encode after one round. -/

/-- C4: for every byte value, encoding the three-sample group obtained by
decoding it, decoding the resulting byte again and re-encoding gives the
same byte as the first encode: the composite is idempotent after the
first round. -/
theorem decode_encode_idempotent (b : Fin 256) :
    convertPCM16ToMulaw (convertMulawToPCM16 (convertPCM16ToMulaw (convertMulawToPCM16 [b.val]))) =
    convertPCM16ToMulaw (convertMulawToPCM16 [b.val]) := by
  revert b; decide

/-! ## Claim C5: totality and output validity of the codec. -/

/-- C5: the decoder maps every byte below 256 into the signed 16-bit
range, the exponent-search loop of the encoder always lands in [0, 7],
and the encoder maps every in-range sample to a valid 8-bit byte; both
functions are total in this embedding. -/
theorem codec_total (b : Nat) (pcm : Int) (hb : b < 256)
    (h1 : -32768 ≤ pcm) (h2 : pcm ≤ 32767) :
    (-32768 ≤ mulawToPcm b ∧ mulawToPcm b ≤ 32767) ∧
    findExp (min pcm.natAbs 32635 + 132) ≤ 7 ∧
    pcmToMulaw pcm < 256 := by
  refine ⟨mulaw_range ⟨b, hb⟩, ?_, ?_⟩
  · rw [findExp_eq_minExpClaim]; exact minExpClaim_le _
  · have hexp : findExp (min pcm.natAbs 32635 + 132) ≤ 7 := by
      rw [findExp_eq_minExpClaim]; exact minExpClaim_le _
    unfold pcmToMulaw
    have h256 : (256 : Nat) = 2 ^ 8 := by norm_num
    rw [h256]
    apply Nat.xor_lt_two_pow
    · apply Nat.or_lt_two_pow
      · apply Nat.or_lt_two_pow
        · split <;> norm_num
        · have : findExp (min pcm.natAbs 32635 + 132) <<< 4 ≤ 7 <<< 4 := by
            simp only [Nat.shiftLeft_eq]; exact Nat.mul_le_mul_right _ hexp
          omega
      · have := Nat.and_le_right
          (n := (min pcm.natAbs 32635 + 132) >>> (findExp (min pcm.natAbs 32635 + 132) + 3))
          (m := 0x0F)
        omega
    · norm_num

/-- C5 witness: totality facts at byte 42 and sample -1234. -/
theorem codec_total_witness :
    (-32768 ≤ mulawToPcm 42 ∧ mulawToPcm 42 ≤ 32767) ∧
    findExp (min (Int.natAbs (-1234)) 32635 + 132) ≤ 7 ∧
    pcmToMulaw (-1234) < 256 :=
  codec_total 42 (-1234) (by decide) (by decide) (by decide)

/-! ## Claim C6: pacer tick behaviour. -/

/-- C6 counterexample: a tick that fires after both sockets have closed
does change the session state: it cancels the pacer interval itself (the
flusher handle goes dead), even though it sends nothing and leaves the
queue untouched, so the clause that such a tick changes nothing is false
as stated. -/
theorem tick_both_closed_cancels_cex :
    ¬ (flusherTickBody sessBothClosed).1 = sessBothClosed ∧
    (flusherTickBody sessBothClosed).1.flusherActive = false ∧
    (flusherTickBody sessBothClosed).2 = none ∧
    (flusherTickBody sessBothClosed).1.outMu = sessBothClosed.outMu := by decide

/-- C6 (amended): with the telephony socket open and a stream identifier
assigned, k ticks on a queue of k * 160 bytes send exactly the successive
160-byte prefixes as media frames in FIFO order and empty the queue, and
the (k + 1)th tick sends a mark carrying no audio; when the socket is not
open or no stream identifier is assigned, a tick sends nothing and leaves
the queue unchanged, and the state is fully unchanged except that a tick
after both sockets have closed cancels the pacer interval itself. -/
theorem flusher_tick_spec (s t u : SessionState) (k : Nat)
    (hopen : s.twilioState = WsState.OPEN) (hsid : s.streamSid ≠ none)
    (hlen : s.outMu.length = 160 * k)
    (ht : t.twilioState ≠ WsState.OPEN ∨ t.streamSid = none)
    (hu1 : u.twilioState ≠ WsState.OPEN ∨ u.streamSid = none)
    (hu2 : ¬ ((u.openaiWs = none ∨ u.openaiWs = some WsState.CLOSED) ∧
      u.twilioState = WsState.CLOSED)) :
    (tickN s k).2 = chunks160 k s.outMu ∧
    (tickN s k).1.outMu = [] ∧
    (tickN s (k + 1)).2 = chunks160 k s.outMu ++ [TwilioMsg.mark] ∧
    ((flusherTickBody t).1.outMu = t.outMu ∧ (flusherTickBody t).2 = none) ∧
    flusherTickBody u = (u, none) := by
  have hd := tickN_drain k s hopen hsid hlen
  refine ⟨by rw [hd], by rw [hd], ?_, ?_, ?_⟩
  · rw [tickN_add k 1 s, hd]
    have hmt : flusherTickBody { s with outMu := ([] : List Nat) } =
        ({ s with outMu := ([] : List Nat) }, some TwilioMsg.mark) := by
      rw [flusherTickBody]
      rw [if_neg (by
        rw [show ({ s with outMu := ([] : List Nat) } : SessionState).twilioState =
          s.twilioState from rfl, hopen]
        simp)]
      rw [if_neg ?hb2]
      case hb2 =>
        rw [show ({ s with outMu := ([] : List Nat) } : SessionState).twilioState =
          s.twilioState from rfl, hopen]
        simp
        intro hc
        exact absurd hc hsid
      rw [if_neg (by simp [CHUNK])]
    show _ ++ (tickN _ 1).2 = _
    have h1 : tickN { s with outMu := ([] : List Nat) } 1 =
        (({ s with outMu := ([] : List Nat) } : SessionState), [TwilioMsg.mark]) := by
      show (let t := flusherTickBody _; let r := tickN t.1 0; (r.1, t.2.toList ++ r.2)) = _
      rw [hmt]
      rfl
    rw [h1]
  · rw [flusherTickBody]
    rcases ht with ht | ht
    · by_cases hc : (t.openaiWs = none ∨ t.openaiWs = some WsState.CLOSED) ∧
          t.twilioState = WsState.CLOSED
      · rw [if_pos hc]; exact ⟨rfl, rfl⟩
      · rw [if_neg hc, if_pos (Or.inr ht)]; exact ⟨rfl, rfl⟩
    · by_cases hc : (t.openaiWs = none ∨ t.openaiWs = some WsState.CLOSED) ∧
          t.twilioState = WsState.CLOSED
      · rw [if_pos hc]; exact ⟨rfl, rfl⟩
      · rw [if_neg hc, if_pos (Or.inl ht)]; exact ⟨rfl, rfl⟩
  · rw [flusherTickBody, if_neg hu2]
    rcases hu1 with hu | hu
    · rw [if_pos (Or.inr hu)]
    · rw [if_pos (Or.inl hu)]

/-- C6 witness: one queued frame drained in one tick with a mark on the
next, a deferring tick on a closing socket, and a deferring tick on a
session that is not both-closed. -/
theorem flusher_tick_spec_witness :
    (tickN sessLoaded 1).2 = chunks160 1 sessLoaded.outMu ∧
    (tickN sessLoaded 1).1.outMu = [] ∧
    (tickN sessLoaded (1 + 1)).2 = chunks160 1 sessLoaded.outMu ++ [TwilioMsg.mark] ∧
    ((flusherTickBody sessBothClosed).1.outMu = sessBothClosed.outMu ∧
      (flusherTickBody sessBothClosed).2 = none) ∧
    flusherTickBody sessNotOpen = (sessNotOpen, none) :=
  flusher_tick_spec sessLoaded sessBothClosed sessNotOpen 1
    (by decide) (by decide) (by decide) (by decide) (by decide) (by decide)

/-! ## Claim C7: media events forward to the AI socket only when open. -/

/-- C7: a telephony media event leaves the session state (in particular
the output queue) unchanged, forwards the decoded payload as an
input-audio-append message exactly when the AI socket is open, and
produces no message exactly when it is not. -/
theorem media_forward_iff_open (s : SessionState) (payload : List Nat) :
    (handleMediaEvent s payload).1 = s ∧
    ((handleMediaEvent s payload).2 =
        some (OpenAiMsg.inputAudioAppend (convertMulawToPCM16 payload)) ↔
      s.openaiWs = some WsState.OPEN) ∧
    ((handleMediaEvent s payload).2 = none ↔ ¬ s.openaiWs = some WsState.OPEN) := by
  rw [handleMediaEvent]
  by_cases hc : s.openaiWs = some WsState.OPEN
  · rw [if_pos hc]; simp [hc]
  · rw [if_neg hc]; simp [hc]

/-- C7 witness: a media event on a session whose AI socket is still
connecting is dropped without any state change. -/
theorem media_forward_iff_open_witness :
    (handleMediaEvent sessClosedAi [1, 2, 3]).1 = sessClosedAi ∧
    ((handleMediaEvent sessClosedAi [1, 2, 3]).2 =
        some (OpenAiMsg.inputAudioAppend (convertMulawToPCM16 [1, 2, 3])) ↔
      sessClosedAi.openaiWs = some WsState.OPEN) ∧
    ((handleMediaEvent sessClosedAi [1, 2, 3]).2 = none ↔
      ¬ sessClosedAi.openaiWs = some WsState.OPEN) :=
  media_forward_iff_open sessClosedAi [1, 2, 3]

/-! ## Claim C8: teardown symmetry of close and error events. -/

/-- C8 counterexample: with both sockets open, the AI-socket error
handler issues no close at all against the telephony socket, so the
clause that an error event issues exactly one close is false as
stated. -/
theorem error_event_issues_no_close_cex :
    (handleOpenaiError sessBothOpen).2 = [] ∧
    ¬ (handleOpenaiError sessBothOpen).2 = [CloseCmd.closeTwilio] := by decide

/-- C8 (amended): whenever either leg's close event fires while the other
leg is still open, exactly one close is issued against the other leg; the
error handlers of the main server only log and issue no close themselves,
teardown after an error relying on the close event that follows it. -/
theorem close_teardown_symmetry (s : SessionState)
    (h1 : s.twilioState = WsState.OPEN) (h2 : s.openaiWs = some WsState.OPEN) :
    (handleOpenaiClose s).2 = [CloseCmd.closeTwilio] ∧
    (handleTwilioClose s).2 = [CloseCmd.closeOpenai] ∧
    (handleOpenaiError s).2 = [] ∧
    (handleTwilioError s).2 = [] := by
  refine ⟨?_, ?_, rfl, rfl⟩
  · rw [handleOpenaiClose, if_pos h1]
  · rw [handleTwilioClose, if_pos h2]

/-- C8 witness: the close and error handlers evaluated on a session with
both sockets open. -/
theorem close_teardown_symmetry_witness :
    (handleOpenaiClose sessBothOpen).2 = [CloseCmd.closeTwilio] ∧
    (handleTwilioClose sessBothOpen).2 = [CloseCmd.closeOpenai] ∧
    (handleOpenaiError sessBothOpen).2 = [] ∧
    (handleTwilioError sessBothOpen).2 = [] :=
  close_teardown_symmetry sessBothOpen (by decide) (by decide)

/-! ## Claim C9: timers cancelled on teardown. -/

/-- C9: in the part_000 variant a telephony stop event closes both
sockets but leaves both recurring timers running, contradicting the
requirement that every transition into teardown cancels all the timers of
the session; the main server teardown routine hardCloseAll does cancel
both, after which a tick has no effect and sends nothing. -/
theorem p0_stop_timer_leak :
    (p0HandleStop sessBothOpen).1.flusherActive = true ∧
    (p0HandleStop sessBothOpen).1.idleActive = true ∧
    (p0HandleStop sessBothOpen).2 = [CloseCmd.closeOpenai, CloseCmd.closeTwilio] ∧
    (hardCloseAll sessBothOpen).1.flusherActive = false ∧
    (hardCloseAll sessBothOpen).1.idleActive = false ∧
    (flusherTick (hardCloseAll sessBothOpen).1).1 = (hardCloseAll sessBothOpen).1 ∧
    (flusherTick (hardCloseAll sessBothOpen).1).2 = none := by decide

/-! ## Claim C10: HTTP health endpoint. -/

/-- C10 counterexample: the main server answers /health with 200 but its
JSON body carries the time under the field at and has no timestamp field,
so the claim that the body has a timestamp field is false as stated. -/
theorem health_timestamp_field_cex :
    healthHandlerMain "/health" "2026-10-11T00:00:00.000Z" =
      (200, some [("status", Json.str "ok"), ("at", Json.str "2026-10-11T00:00:00.000Z")]) ∧
    jsonField [("status", Json.str "ok"), ("at", Json.str "2026-10-11T00:00:00.000Z")]
      "timestamp" = none := by decide

/-- C10 (amended): a request to /health returns 200 with a JSON body
holding an ok marker and the current time, under variant-specific field
names: status and at in the main server, status and timestamp in
part_000 (and parts 001, 003, 005), ok and ts in part_004; a request to
any other path returns 404 with no JSON body. -/
theorem health_routes (path iso : String) (hp : path ≠ "/health") :
    healthHandlerMain "/health" iso =
      (200, some [("status", Json.str "ok"), ("at", Json.str iso)]) ∧
    healthHandlerP0 "/health" iso =
      (200, some [("status", Json.str "ok"), ("timestamp", Json.str iso)]) ∧
    healthHandlerP4 "/health" iso =
      (200, some [("ok", Json.bool true), ("ts", Json.str iso)]) ∧
    (healthHandlerMain path iso).1 = 404 ∧ (healthHandlerMain path iso).2 = none ∧
    (healthHandlerP0 path iso).1 = 404 ∧ (healthHandlerP0 path iso).2 = none ∧
    (healthHandlerP4 path iso).1 = 404 ∧ (healthHandlerP4 path iso).2 = none := by
  rw [healthHandlerMain, healthHandlerP0, healthHandlerP4,
    healthHandlerMain, healthHandlerP0, healthHandlerP4]
  rw [if_pos rfl, if_pos rfl, if_pos rfl, if_neg hp, if_neg hp, if_neg hp]
  exact ⟨rfl, rfl, rfl, rfl, rfl, rfl, rfl, rfl, rfl⟩

/-- C10 witness: the three handlers evaluated at /health and at the
non-health path /media. -/
theorem health_routes_witness :
    healthHandlerMain "/health" "2026-01-01T00:00:00.000Z" =
      (200, some [("status", Json.str "ok"), ("at", Json.str "2026-01-01T00:00:00.000Z")]) ∧
    healthHandlerP0 "/health" "2026-01-01T00:00:00.000Z" =
      (200, some [("status", Json.str "ok"), ("timestamp", Json.str "2026-01-01T00:00:00.000Z")]) ∧
    healthHandlerP4 "/health" "2026-01-01T00:00:00.000Z" =
      (200, some [("ok", Json.bool true), ("ts", Json.str "2026-01-01T00:00:00.000Z")]) ∧
    (healthHandlerMain "/media" "2026-01-01T00:00:00.000Z").1 = 404 ∧
    (healthHandlerMain "/media" "2026-01-01T00:00:00.000Z").2 = none ∧
    (healthHandlerP0 "/media" "2026-01-01T00:00:00.000Z").1 = 404 ∧
    (healthHandlerP0 "/media" "2026-01-01T00:00:00.000Z").2 = none ∧
    (healthHandlerP4 "/media" "2026-01-01T00:00:00.000Z").1 = 404 ∧
    (healthHandlerP4 "/media" "2026-01-01T00:00:00.000Z").2 = none :=
  health_routes "/media" "2026-01-01T00:00:00.000Z" (by decide)

end VoiceAgent
